import Mathlib

/-
  Verification of the custom-attributes library (src/main.js and the
  registerAttribute variant in src/unnamed/part_001) against its
  natural-language specification.

  The embedding is a shallow one: DOM state at mutation-batch dispatch time
  is an association list of (element id, attribute name, value) entries;
  the per-registration observedElements WeakMap is a list of tracked
  element ids; invoked callbacks are logged as an event list.  Document
  order of a querySelectorAll result is modelled by the order of the
  descendant id list carried by a node.
-/

namespace CustomAttributes

/-- One attribute present in the DOM at dispatch time: element id,
attribute name, attribute value. -/
structure AttrEntry where
  el : Nat
  attr : String
  value : String
deriving DecidableEq

/-- The DOM state at the moment a mutation batch is processed (the handler
reads attribute values live via getAttribute, so only dispatch-time state
matters). -/
abbrev Dom := List AttrEntry

/-- `element.getAttribute(name)` at dispatch time. -/
def domGet (dom : Dom) (el : Nat) (name : String) : Option String :=
  (dom.find? fun a => a.el == el && a.attr == name).map (fun a => a.value)

/-- `element.hasAttribute(name)` at dispatch time. -/
def hasAttr (dom : Dom) (name : String) (el : Nat) : Bool :=
  (domGet dom el name).isSome

/-- A logged lifecycle callback invocation. -/
inductive Event
  | connected (el : Nat) (value : Option String)
  | changed (el : Nat) (newValue : Option String) (oldValue : String)
  | disconnected (el : Nat)
deriving DecidableEq

/-- A node listed in a childList record's removedNodes or addedNodes:
whether it is an Element, its id, and its descendant element ids in
document order (what `node.querySelectorAll` ranges over at dispatch
time). -/
structure DNode where
  isElement : Bool
  id : Nat
  descendants : List Nat
deriving DecidableEq

/-- A MutationRecord as consumed by mutationHandler in src/main.js: either
a childList record (removedNodes, addedNodes) or an attributes record
(target, target instanceof Element, record.oldValue; the new value is not
carried by the record — the handler reads it live). -/
inductive MRecord
  | childList (removed added : List DNode)
  | attrRecord (target : Nat) (targetIsElement : Bool) (oldValue : Option String)
deriving DecidableEq

/-- Per-registration mutable state: the observedElements WeakMap keys
(tracked) and the log of callbacks invoked so far (events). -/
structure TState where
  tracked : List Nat
  events : List Event
deriving DecidableEq

/-- WeakMap.set key semantics: the key set gains `el` if absent. -/
def trackedInsert (l : List Nat) (el : Nat) : List Nat :=
  if el ∈ l then l else l ++ [el]

/-- newAttribute (src/main.js lines 130-134): construct the instance,
invoke connectedCallback with the element's live attribute value, and
store the instance in observedElements. -/
def newAttribute (dom : Dom) (name : String) (s : TState) (el : Nat) : TState :=
  { tracked := trackedInsert s.tracked el,
    events := s.events ++ [Event.connected el (domGet dom el name)] }

/-- The removal branch's body for one node: call disconnectedCallback when
the element is in observedElements (src/main.js does not delete the entry
here). -/
def disconnectIfTracked (s : TState) (el : Nat) : TState :=
  if el ∈ s.tracked then { s with events := s.events ++ [Event.disconnected el] } else s

/-- src/main.js lines 74-87: handling of one removedNode.  If it is an
Element carrying the attribute, disconnect it when tracked; otherwise
sweep its descendants that carry the attribute. -/
def processRemovedNode (dom : Dom) (name : String) (s : TState) (n : DNode) : TState :=
  if n.isElement then
    if hasAttr dom name n.id then
      disconnectIfTracked s n.id
    else
      (n.descendants.filter (hasAttr dom name)).foldl disconnectIfTracked s
  else s

/-- src/main.js lines 89-103: handling of one addedNode.  If it is an
Element carrying the attribute, connect it; otherwise connect its
descendants that carry the attribute. -/
def processAddedNode (dom : Dom) (name : String) (s : TState) (n : DNode) : TState :=
  if n.isElement then
    if hasAttr dom name n.id then
      newAttribute dom name s n.id
    else
      (n.descendants.filter (hasAttr dom name)).foldl (newAttribute dom name) s
  else s

/-- src/main.js lines 106-126: handling of one attributes record.  The new
value is read live (record.target.getAttribute(name)); record.oldValue is
compared against it.  oldValue null means a new attribute; live value null
with a tracked target means deletion (disconnect and remove from the
store); a differing live value on a tracked target means a change. -/
def processAttrRecord (dom : Dom) (name : String) (s : TState) (target : Nat) :
    Option String → TState
  | none => newAttribute dom name s target
  | some ov =>
    if domGet dom target name = none ∧ target ∈ s.tracked then
      { tracked := s.tracked.erase target,
        events := s.events ++ [Event.disconnected target] }
    else if domGet dom target name ≠ some ov ∧ target ∈ s.tracked then
      { s with events := s.events ++ [Event.changed target (domGet dom target name) ov] }
    else s

/-- mutationHandler (src/main.js lines 71-128).  Note the two `return`
statements in the source: the first childList record with removedNodes
(respectively, with addedNodes) is processed and then the handler returns,
leaving every later record of the batch unprocessed. -/
def mutationHandler (dom : Dom) (name : String) (s : TState) : List MRecord → TState
  | [] => s
  | r :: rs =>
    match r with
    | MRecord.childList removed added =>
      if removed.length > 0 then
        removed.foldl (processRemovedNode dom name) s
      else if added.length > 0 then
        added.foldl (processAddedNode dom name) s
      else
        mutationHandler dom name s rs
    | MRecord.attrRecord target isElem old =>
      if isElem then
        mutationHandler dom name (processAttrRecord dom name s target old) rs
      else
        mutationHandler dom name s rs

/-- Number of connectedCallback invocations logged for one element. -/
def connCount (evs : List Event) (el : Nat) : Nat :=
  (evs.filter fun e => match e with
    | Event.connected e2 _ => e2 == el
    | _ => false).length

/-- Number of disconnectedCallback invocations logged for one element. -/
def discCount (evs : List Event) (el : Nat) : Nat :=
  (evs.filter fun e => match e with
    | Event.disconnected e2 => e2 == el
    | _ => false).length

/-- An entry of the module-level `registries` WeakMap as the source's
lookup branch expects it: the attribute names watched under a root and the
shared observer's handle. -/
structure RegEntry where
  rootId : Nat
  attributes : List String
  observerId : Nat
deriving DecidableEq

/-- An active MutationObserver.observe configuration. -/
structure ObserverCfg where
  observerId : Nat
  rootId : Nat
  attributeFilter : List String
  childList : Bool
deriving DecidableEq

/-- Module-level state: the `registries` WeakMap content, the set of active
observe configurations, and a counter for allocating observer identities.
Nothing in the source ever writes to `registries` (there is no
registries.set call), so in every reachable state it stays as module load
left it: empty. -/
structure World where
  registries : List RegEntry
  observers : List ObserverCfg
  nextObserverId : Nat
deriving DecidableEq

/-- Module load: `const registries = new WeakMap();`, no observers yet. -/
def initialWorld : World := ⟨[], [], 0⟩

/-- The root argument of registerAttribute: its id, whether it is an
Element, and its descendant element ids in document order. -/
structure RootNode where
  id : Nat
  isElement : Bool
  descendants : List Nat
deriving DecidableEq

/-- What one registerAttribute call produces: the updated module state,
the connectedCallback invocations of the initial pass (in order), the
console.error diagnostics emitted, and the observedElements keys seeded by
the initial pass. -/
structure RegResult where
  world : World
  events : List Event
  diagnostics : List String
  tracked : List Nat
deriving DecidableEq

/-- `registries.get(root)`. -/
def registriesGet (w : World) (rootId : Nat) : Option RegEntry :=
  w.registries.find? fun e => e.rootId == rootId

/-- The console.error text of the duplicate-name branch (identifies the
colliding name and the scope). -/
def dupMessage (name : String) (rootId : Nat) : String :=
  "name already used: " ++ name ++ " within scope " ++ toString rootId

/-- `observer.disconnect()`: the observer's active configurations go away. -/
def disconnectWorld (w : World) (oid : Nat) : World :=
  { w with observers := w.observers.filter fun o => o.observerId ≠ oid }

/-- `observer.observe(root, {...observerConfig, attributeFilter, childList})`. -/
def observeWorld (w : World) (oid rootId : Nat) (flt : List String) (cl : Bool) : World :=
  { w with observers := w.observers ++ [⟨oid, rootId, flt, cl⟩] }

/-- The initial pass (src/main.js lines 139-148): with childList true,
`root.querySelectorAll` yields the descendants carrying the attribute in
document order and each is connected via newAttribute; with childList
false and an Element root, newAttribute(root) runs unconditionally; with
childList false and a non-Element root, nothing happens (the source's
else branch is only a comment). -/
def initialScan (dom : Dom) (name : String) (root : RootNode) (childList : Bool) : TState :=
  if childList then
    (root.descendants.filter (hasAttr dom name)).foldl (newAttribute dom name) ⟨[], []⟩
  else if root.isElement then
    newAttribute dom name ⟨[], []⟩ root.id
  else ⟨[], []⟩

/-- registerAttribute (src/main.js lines 42-149).  Looks the root up in
`registries`; on a hit with the same name already present it emits one
console.error and returns installing nothing; on a hit with a new name it
disconnects the shared observer and re-observes with the combined filter;
on a miss it creates a fresh observer with the singleton filter.  It then
runs the initial pass.  Because the source never stores anything into
`registries`, the lookup hits only in unreachable states. -/
def registerAttribute (w : World) (dom : Dom) (name : String) (root : RootNode)
    (childList : Bool) : RegResult :=
  match registriesGet w root.id with
  | some entry =>
    if name ∈ entry.attributes then
      ⟨w, [], [dupMessage name root.id], []⟩
    else
      ⟨observeWorld (disconnectWorld w entry.observerId) entry.observerId root.id
          (name :: entry.attributes) childList,
        (initialScan dom name root childList).events,
        [],
        (initialScan dom name root childList).tracked⟩
  | none =>
    ⟨observeWorld { w with nextObserverId := w.nextObserverId + 1 } w.nextObserverId
        root.id [name] childList,
      (initialScan dom name root childList).events,
      [],
      (initialScan dom name root childList).tracked⟩

/-- The name parameter as a JS value: whether `typeof name === "string"`,
and the string when it is one. -/
structure JSName where
  isString : Bool
  str : String
deriving DecidableEq

/-- The customAttribute parameter as a JS value: the outcome of the
source's `customAttribute instanceof CustomAttribute` test. -/
structure JSFactory where
  isInstanceOfCustomAttribute : Bool
deriving DecidableEq

/-- The root parameter as a JS value: the outcome of
`root instanceof HTMLElement`, plus the underlying node. -/
structure JSRoot where
  isHTMLElement : Bool
  node : RootNode
deriving DecidableEq

/-- The childList parameter as a JS value: whether
`typeof childList === "boolean"`, and the boolean when it is one. -/
structure JSFlag where
  isBoolean : Bool
  val : Bool
deriving DecidableEq

/-- registerAttribute of src/unnamed/part_001 (lines 101-249): the same
flow as src/main.js but preceded by four type checks (lines 108-130), each
throwing before anything is observed or scanned, and with the initial
pass's non-Element else branch throwing instead of doing nothing (lines
238-244; in the model that throw is placed with the other errors — it is
unreachable once the HTMLElement check has passed, since every HTMLElement
is an Element). -/
def registerAttributeChecked (w : World) (dom : Dom) (n : JSName) (ca : JSFactory)
    (root : JSRoot) (cl : JSFlag) : Except String RegResult :=
  if n.isString = false then
    Except.error "expected parameter name to be of type string"
  else if ca.isInstanceOfCustomAttribute = false then
    Except.error "expected parameter customAttribute to be an instance of CustomAttribute"
  else if root.isHTMLElement = false then
    Except.error "expected parameter root to be an instance of HTMLElement"
  else if cl.isBoolean = false then
    Except.error "expected parameter childList to be of type boolean"
  else if cl.val = false ∧ root.node.isElement = false then
    Except.error "root must be a valid element node"
  else
    Except.ok (registerAttribute w dom n.str root.node cl.val)

/-- The value carried by a connect or change event equals the element's
live attribute value in the given DOM (what getAttribute returns at
dispatch time). -/
def liveValue (dom : Dom) (name : String) : Event → Prop
  | Event.connected el v => v = domGet dom el name
  | Event.changed el nv _ => nv = domGet dom el name
  | Event.disconnected _ => True

/-- C1: the claim says callbacks equal the per-element net effect of the
whole batch, every record is consumed before callbacks are decided, and no
element receives more than one callback per batch.  The code instead
replays records one by one: for a batch recording the value of `x` on
element 1 going 1 → 2 → 3 (two attribute records, live value "3"), the
handler emits two changedCallback invocations on the same element —
("3","1") and then ("3","2") — where the net effect is the single call
changedCallback("3","1"). -/
theorem c1_per_record_replay :
    (mutationHandler [⟨1, "x", "3"⟩] "x" ⟨[1], []⟩
        [MRecord.attrRecord 1 true (some "1"), MRecord.attrRecord 1 true (some "2")]).events
      = [Event.changed 1 (some "3") "1", Event.changed 1 (some "3") "2"] := by
  decide

/-- C2: the claim says an element removed and re-added within one batch
(a move) with its attribute unchanged fires neither disconnectedCallback
nor connectedCallback.  On the batch [removal of element 1, addition of
element 1] with element 1 tracked and still carrying `x="v"`, the handler
fires disconnectedCallback for element 1 and then returns without ever
processing the addition record. -/
theorem c2_move_fires_disconnect :
    (mutationHandler [⟨1, "x", "v"⟩] "x" ⟨[1], []⟩
        [MRecord.childList [⟨true, 1, []⟩] [], MRecord.childList [] [⟨true, 1, []⟩]]).events
      = [Event.disconnected 1] := by
  decide

/-- C3: the claim says that after attribute-only mutations, connected
count minus disconnected count lies in {0, 1} and equals 1 exactly when
the attribute is present.  Starting from a registered element 1 (one
initial connect, value "1") and delivering one batch recording
removeAttribute then setAttribute("2") — records with oldValue "1" and
oldValue null, live value "2" — the handler emits changed then a second
connected: connected count 2, disconnected count 0, difference 2, with the
attribute present. -/
theorem c3_count_invariant_broken :
    connCount (mutationHandler [⟨1, "x", "2"⟩] "x" ⟨[1], [Event.connected 1 (some "1")]⟩
        [MRecord.attrRecord 1 true (some "1"), MRecord.attrRecord 1 true none]).events 1 = 2 ∧
    discCount (mutationHandler [⟨1, "x", "2"⟩] "x" ⟨[1], [Event.connected 1 (some "1")]⟩
        [MRecord.attrRecord 1 true (some "1"), MRecord.attrRecord 1 true none]).events 1 = 0 ∧
    hasAttr [⟨1, "x", "2"⟩] "x" 1 = true := by
  decide

/-- C4: the claim says a duplicate registration emits exactly one
diagnostic and installs nothing.  Because the source never stores anything
into `registries`, the duplicate branch is unreachable: registering the
same name "x" twice on the same root (one descendant carrying x="1")
leaves the second call with no diagnostic, a full repeated initial scan
(connectedCallback fires again), and a second active observer. -/
theorem c4_duplicate_not_detected :
    (registerAttribute (registerAttribute initialWorld [⟨1, "x", "1"⟩] "x" ⟨0, true, [1]⟩ true).world
        [⟨1, "x", "1"⟩] "x" ⟨0, true, [1]⟩ true).diagnostics = [] ∧
    (registerAttribute (registerAttribute initialWorld [⟨1, "x", "1"⟩] "x" ⟨0, true, [1]⟩ true).world
        [⟨1, "x", "1"⟩] "x" ⟨0, true, [1]⟩ true).events = [Event.connected 1 (some "1")] ∧
    (registerAttribute (registerAttribute initialWorld [⟨1, "x", "1"⟩] "x" ⟨0, true, [1]⟩ true).world
        [⟨1, "x", "1"⟩] "x" ⟨0, true, [1]⟩ true).world.observers.length = 2 := by
  decide

/-- C5: the claim says each rootScope has at most one shared observer
whose filter always equals the full set of watched names.  Because the
source never stores anything into `registries`, registering "a" and then
"b" on the same root yields two independent observers with singleton
filters ["a"] and ["b"] (never a combined filter), and the registry stays
empty. -/
theorem c5_no_shared_observer :
    ((registerAttribute (registerAttribute initialWorld [] "a" ⟨0, true, []⟩ true).world
        [] "b" ⟨0, true, []⟩ true).world.observers.map fun o => o.attributeFilter)
      = [["a"], ["b"]] ∧
    (registerAttribute (registerAttribute initialWorld [] "a" ⟨0, true, []⟩ true).world
        [] "b" ⟨0, true, []⟩ true).world.registries = [] := by
  decide

/-- C6 counterexample: with the root element 0 itself carrying x="r" and
its descendant 1 carrying x="a", the scope contains two elements carrying
the attribute, but registration with childList=true fires only one
connectedCallback — `querySelectorAll` never matches the root itself. -/
theorem c6_root_not_scanned :
    (registerAttribute initialWorld [⟨0, "x", "r"⟩, ⟨1, "x", "a"⟩] "x" ⟨0, true, [1]⟩ true).events.length = 1 ∧
    ((0 :: [1]).filter (hasAttr [⟨0, "x", "r"⟩, ⟨1, "x", "a"⟩] "x")).length = 2 := by
  decide

/-- C7 counterexample: registering with childList=false on an element root
that does not carry the attribute does not fail — it performs a connect
anyway, passing null as the value, and emits no diagnostic. -/
theorem c7_connect_on_missing_attribute :
    (registerAttribute initialWorld [] "x" ⟨0, true, []⟩ false).events
      = [Event.connected 0 none] ∧
    (registerAttribute initialWorld [] "x" ⟨0, true, []⟩ false).diagnostics = [] := by
  decide

/-- Helper: a fold whose step only appends events satisfying P leaves any
event of the result either already present or satisfying P. -/
theorem foldl_events_mem {α : Type} (P : Event → Prop) (step : TState → α → TState)
    (hstep : ∀ (s : TState) (x : α) (e : Event), e ∈ (step s x).events → e ∈ s.events ∨ P e) :
    ∀ (l : List α) (s : TState) (e : Event), e ∈ (l.foldl step s).events → e ∈ s.events ∨ P e := by
  intro l
  induction l with
  | nil => intro s e h; exact Or.inl h
  | cons x xs ih =>
    intro s e h
    rcases ih (step s x) e h with h1 | h1
    · exact hstep s x e h1
    · exact Or.inr h1

/-- Helper: newAttribute only appends a connect event carrying the live
attribute value. -/
theorem newAttribute_events_mem (dom : Dom) (name : String) (s : TState) (el : Nat) (e : Event)
    (h : e ∈ (newAttribute dom name s el).events) : e ∈ s.events ∨ liveValue dom name e := by
  simp only [newAttribute, List.mem_append, List.mem_singleton] at h
  rcases h with h | h
  · exact Or.inl h
  · subst h; exact Or.inr rfl

/-- Helper: the removal branch only appends disconnect events. -/
theorem disconnectIfTracked_events_mem (dom : Dom) (name : String) (s : TState) (el : Nat)
    (e : Event) (h : e ∈ (disconnectIfTracked s el).events) :
    e ∈ s.events ∨ liveValue dom name e := by
  unfold disconnectIfTracked at h
  split at h
  · simp only [List.mem_append, List.mem_singleton] at h
    rcases h with h | h
    · exact Or.inl h
    · subst h; exact Or.inr trivial
  · exact Or.inl h

/-- Helper: processing one removedNode only appends disconnect events. -/
theorem processRemovedNode_events_mem (dom : Dom) (name : String) (s : TState) (n : DNode)
    (e : Event) (h : e ∈ (processRemovedNode dom name s n).events) :
    e ∈ s.events ∨ liveValue dom name e := by
  unfold processRemovedNode at h
  split at h
  · split at h
    · exact disconnectIfTracked_events_mem dom name s n.id e h
    · exact foldl_events_mem _ _ (disconnectIfTracked_events_mem dom name) _ s e h
  · exact Or.inl h

/-- Helper: processing one addedNode only appends connect events carrying
live attribute values. -/
theorem processAddedNode_events_mem (dom : Dom) (name : String) (s : TState) (n : DNode)
    (e : Event) (h : e ∈ (processAddedNode dom name s n).events) :
    e ∈ s.events ∨ liveValue dom name e := by
  unfold processAddedNode at h
  split at h
  · split at h
    · exact newAttribute_events_mem dom name s n.id e h
    · exact foldl_events_mem _ _ (newAttribute_events_mem dom name) _ s e h
  · exact Or.inl h

/-- Helper: processing one attributes record only appends events whose
values are read live from the dispatch-time DOM. -/
theorem processAttrRecord_events_mem (dom : Dom) (name : String) (s : TState) (t : Nat)
    (old : Option String) (e : Event) (h : e ∈ (processAttrRecord dom name s t old).events) :
    e ∈ s.events ∨ liveValue dom name e := by
  cases old with
  | none => exact newAttribute_events_mem dom name s t e h
  | some ov =>
    by_cases h1 : domGet dom t name = none ∧ t ∈ s.tracked
    · simp only [processAttrRecord, if_pos h1] at h
      simp at h
      rcases h with h | h
      · exact Or.inl h
      · subst h; exact Or.inr trivial
    · by_cases h2 : domGet dom t name ≠ some ov ∧ t ∈ s.tracked
      · simp only [processAttrRecord, if_neg h1, if_pos h2] at h
        simp at h
        rcases h with h | h
        · exact Or.inl h
        · subst h; exact Or.inr rfl
      · simp only [processAttrRecord, if_neg h1, if_neg h2] at h
        exact Or.inl h

/-- Helper: every event the handler adds over a whole batch carries the
live dispatch-time attribute value of its element. -/
theorem mutationHandler_events_mem (dom : Dom) (name : String) :
    ∀ (batch : List MRecord) (s : TState) (e : Event),
      e ∈ (mutationHandler dom name s batch).events → e ∈ s.events ∨ liveValue dom name e := by
  intro batch
  induction batch with
  | nil => intro s e h; exact Or.inl h
  | cons r rs ih =>
    intro s e h
    cases r with
    | childList removed added =>
      simp only [mutationHandler] at h
      split at h
      · exact foldl_events_mem _ _ (processRemovedNode_events_mem dom name) removed s e h
      · split at h
        · exact foldl_events_mem _ _ (processAddedNode_events_mem dom name) added s e h
        · exact ih s e h
    | attrRecord t isElem old =>
      simp only [mutationHandler] at h
      split at h
      · rcases ih _ e h with h1 | h1
        · exact processAttrRecord_events_mem dom name s t old e h1
        · exact Or.inr h1
      · exact ih s e h

/-- C10: the value passed to connectedCallback and the newValue passed to
changedCallback are read live from the element (getAttribute) at the
moment the batch is processed, never taken from the mutation record: every
connect or change event produced by mutationHandler over any batch carries
exactly the dispatch-time DOM value of its target element. -/
theorem c10_live_values (dom : Dom) (name : String) (s : TState) (batch : List MRecord) :
    (∀ el v, Event.connected el v ∈ (mutationHandler dom name s batch).events →
      Event.connected el v ∈ s.events ∨ v = domGet dom el name) ∧
    (∀ el nv ov, Event.changed el nv ov ∈ (mutationHandler dom name s batch).events →
      Event.changed el nv ov ∈ s.events ∨ nv = domGet dom el name) := by
  constructor
  · intro el v h
    exact mutationHandler_events_mem dom name batch s _ h
  · intro el nv ov h
    exact mutationHandler_events_mem dom name batch s _ h

/-- Witness for C10 at a concrete input: the attribute was recorded as
added (oldValue null, the mutation set it to "1") but changed again to "2"
before delivery; the connect callback receives the dispatch-time value
"2". -/
theorem c10_witness :
    Event.connected 1 (some "2") ∈ (⟨[], []⟩ : TState).events ∨ some "2" = domGet [⟨1, "x", "2"⟩] 1 "x" :=
  (c10_live_values [⟨1, "x", "2"⟩] "x" ⟨[], []⟩
      [MRecord.attrRecord 1 true none, MRecord.attrRecord 1 true (some "1")]).1 1 (some "2")
    (by decide)

/-- C9: changedCallback fires only when the live (final) value differs
from the record's old value and the target is tracked; a record whose old
value equals the current live value produces no callback and no state
change; attribute-change and attribute-removal records targeting an
untracked element are silently ignored. -/
theorem c9_changed_guard (dom : Dom) (name : String) (s : TState) (t : Nat) (ov : String) :
    (∀ nv, (mutationHandler dom name s [MRecord.attrRecord t true (some ov)]).events
          = s.events ++ [Event.changed t nv ov]
        ↔ nv = domGet dom t name ∧ t ∈ s.tracked ∧ nv ≠ none ∧ nv ≠ some ov) ∧
    (domGet dom t name = some ov →
      mutationHandler dom name s [MRecord.attrRecord t true (some ov)] = s) ∧
    (t ∉ s.tracked →
      mutationHandler dom name s [MRecord.attrRecord t true (some ov)] = s) := by
  have hrun : mutationHandler dom name s [MRecord.attrRecord t true (some ov)]
      = processAttrRecord dom name s t (some ov) := by
    simp [mutationHandler]
  rw [hrun]
  by_cases ht : t ∈ s.tracked
  · cases hd : domGet dom t name with
    | none =>
      have h1 : domGet dom t name = none ∧ t ∈ s.tracked := ⟨hd, ht⟩
      simp only [processAttrRecord, if_pos h1]
      refine ⟨?_, ?_, ?_⟩
      · intro nv
        constructor
        · intro h
          exfalso
          have h2 := List.append_cancel_left h
          simp at h2
        · rintro ⟨rfl, -, hne, -⟩
          exact absurd rfl hne
      · intro hov
        exact absurd hov (by simp)
      · intro hnt
        exact absurd ht hnt
    | some v =>
      by_cases hvov : v = ov
      · subst hvov
        have h1 : ¬(domGet dom t name = none ∧ t ∈ s.tracked) := by simp [hd]
        have h2 : ¬(domGet dom t name ≠ some v ∧ t ∈ s.tracked) := by simp [hd]
        simp only [processAttrRecord, if_neg h1, if_neg h2]
        refine ⟨?_, ?_, ?_⟩
        · intro nv
          constructor
          · intro h
            exfalso
            have h3 : ([] : List Event) = [Event.changed t nv v] := by
              conv at h => lhs; rw [show s.events = s.events ++ [] by simp]
              exact List.append_cancel_left h
            simp at h3
          · rintro ⟨hnv, -, -, hne⟩
            exact absurd hnv hne
        · intro _
          trivial
        · intro hnt
          exact absurd ht hnt
      · have h1 : ¬(domGet dom t name = none ∧ t ∈ s.tracked) := by simp [hd]
        have h2 : domGet dom t name ≠ some ov ∧ t ∈ s.tracked := by
          refine ⟨?_, ht⟩
          rw [hd]
          simp [hvov]
        simp only [processAttrRecord, if_neg h1, if_pos h2]
        refine ⟨?_, ?_, ?_⟩
        · intro nv
          constructor
          · intro h
            have h3 := List.append_cancel_left h
            simp only [List.cons.injEq, and_true] at h3
            have h5 : domGet dom t name = nv := by
              injection h3
            refine ⟨h5.symm.trans hd, ht, ?_, ?_⟩
            · rw [← h5, hd]
              simp
            · rw [← h5, hd]
              simp [hvov]
          · rintro ⟨hnv, -, -, -⟩
            rw [hnv, hd]
        · intro hov
          exact absurd (Option.some.inj hov) hvov
        · intro hnt
          exact absurd ht hnt
  · have h1 : ¬(domGet dom t name = none ∧ t ∈ s.tracked) := by simp [ht]
    have h2 : ¬(domGet dom t name ≠ some ov ∧ t ∈ s.tracked) := by simp [ht]
    simp only [processAttrRecord, if_neg h1, if_neg h2]
    refine ⟨?_, ?_, ?_⟩
    · intro nv
      constructor
      · intro h
        exfalso
        have h3 : ([] : List Event) = [Event.changed t nv ov] := by
          conv at h => lhs; rw [show s.events = s.events ++ [] by simp]
          exact List.append_cancel_left h
        simp at h3
      · rintro ⟨-, htr, -, -⟩
        exact absurd htr ht
    · intro _
      trivial
    · intro _
      trivial

/-- Witness for C9 at concrete inputs: a tracked element whose value went
"1" to "2" gets exactly changedCallback("2", "1"); the same record on an
untracked element is a no-op. -/
theorem c9_witness :
    (mutationHandler [⟨1, "x", "2"⟩] "x" ⟨[1], []⟩ [MRecord.attrRecord 1 true (some "1")]).events
        = [Event.changed 1 (some "2") "1"] ∧
    mutationHandler [⟨1, "x", "2"⟩] "x" ⟨[], []⟩ [MRecord.attrRecord 1 true (some "1")]
        = ⟨[], []⟩ :=
  ⟨((c9_changed_guard [⟨1, "x", "2"⟩] "x" ⟨[1], []⟩ 1 "1").1 (some "2")).mpr (by decide),
   (c9_changed_guard [⟨1, "x", "2"⟩] "x" ⟨[], []⟩ 1 "1").2.2 (by decide)⟩

/-- Helper: folding newAttribute over a list of elements logs one connect
per element, in list order, each carrying the element's live value. -/
theorem foldl_newAttribute_events (dom : Dom) (name : String) :
    ∀ (l : List Nat) (s : TState),
      (l.foldl (newAttribute dom name) s).events
        = s.events ++ l.map fun el => Event.connected el (domGet dom el name) := by
  intro l
  induction l with
  | nil => intro s; simp
  | cons x xs ih =>
    intro s
    rw [List.foldl_cons, ih]
    simp [newAttribute]

/-- C6 (amended): registering with childList=true on a fresh root fires
connectedCallback once per matching descendant of the scope (the root
element itself is not scanned), in document order, each call receiving
that element's current attribute value, all within the registerAttribute
call — N is the number of matching descendants. -/
theorem c6_amended (w : World) (dom : Dom) (name : String) (root : RootNode)
    (h : registriesGet w root.id = none) :
    (registerAttribute w dom name root true).events
      = ((root.descendants.filter (hasAttr dom name)).map
          fun el => Event.connected el (domGet dom el name)) ∧
    (registerAttribute w dom name root true).events.length
      = (root.descendants.filter (hasAttr dom name)).length := by
  have hev : (registerAttribute w dom name root true).events
      = (initialScan dom name root true).events := by
    unfold registerAttribute
    rw [h]
  have hscan : (initialScan dom name root true).events
      = (root.descendants.filter (hasAttr dom name)).map
          fun el => Event.connected el (domGet dom el name) := by
    unfold initialScan
    rw [if_pos rfl]
    rw [foldl_newAttribute_events]
    rfl
  refine ⟨hev.trans hscan, ?_⟩
  rw [hev, hscan, List.length_map]

/-- Witness for C6 at a concrete input: descendants 1 and 3 carry x, 2
carries a different attribute; exactly two connects fire, in document
order, with the elements' current values. -/
theorem c6_witness :
    (registerAttribute initialWorld [⟨1, "x", "1"⟩, ⟨2, "y", "2"⟩, ⟨3, "x", "3"⟩] "x"
        ⟨0, true, [1, 2, 3]⟩ true).events
      = [Event.connected 1 (some "1"), Event.connected 3 (some "3")] :=
  ((c6_amended initialWorld [⟨1, "x", "1"⟩, ⟨2, "y", "2"⟩, ⟨3, "x", "3"⟩] "x"
      ⟨0, true, [1, 2, 3]⟩ (by decide)).1).trans (by decide)

/-- C7 (amended): with childList=false, if the root is an Element,
connectedCallback is invoked exactly once with the root's current
attribute value — null when the attribute is absent — and no error or
diagnostic is raised; if the root is not an Element the registration
silently does nothing (src/main.js's else branch holds only a comment). -/
theorem c7_amended (w : World) (dom : Dom) (name : String) (root : RootNode)
    (h : registriesGet w root.id = none) :
    (registerAttribute w dom name root false).events
      = (if root.isElement then [Event.connected root.id (domGet dom root.id name)] else []) ∧
    (registerAttribute w dom name root false).diagnostics = [] := by
  have hev : (registerAttribute w dom name root false).events
      = (initialScan dom name root false).events := by
    unfold registerAttribute
    rw [h]
  have hdg : (registerAttribute w dom name root false).diagnostics = [] := by
    unfold registerAttribute
    rw [h]
  refine ⟨?_, hdg⟩
  rw [hev]
  unfold initialScan
  by_cases he : root.isElement
  · simp [he, newAttribute]
  · simp [he]

/-- Witness for C7 at a concrete input: an element root carrying x="v"
gets exactly one connect with value "v". -/
theorem c7_witness :
    (registerAttribute initialWorld [⟨0, "x", "v"⟩] "x" ⟨0, true, []⟩ false).events
      = [Event.connected 0 (some "v")] :=
  ((c7_amended initialWorld [⟨0, "x", "v"⟩] "x" ⟨0, true, []⟩ (by decide)).1).trans (by decide)

/-- C8: registerAttribute of src/unnamed/part_001, called with a wrongly
typed parameter (non-string name, factory failing the CustomAttribute
instance test, non-HTMLElement root, or non-boolean childList flag),
raises a construction error synchronously — the result is an error and
carries no observation, scan, or callback effects. -/
theorem c8_type_errors (w : World) (dom : Dom) (n : JSName) (ca : JSFactory)
    (root : JSRoot) (cl : JSFlag)
    (h : n.isString = false ∨ ca.isInstanceOfCustomAttribute = false ∨
      root.isHTMLElement = false ∨ cl.isBoolean = false) :
    ∃ msg, registerAttributeChecked w dom n ca root cl = Except.error msg := by
  unfold registerAttributeChecked
  cases hn : n.isString <;> cases hca : ca.isInstanceOfCustomAttribute <;>
    cases hr : root.isHTMLElement <;> cases hcl : cl.isBoolean <;>
    simp_all

/-- Witness for C8 at a concrete input: a non-string name is rejected
with an error. -/
theorem c8_witness :
    ∃ msg, registerAttributeChecked initialWorld [] ⟨false, "x"⟩ ⟨true⟩ ⟨true, ⟨0, true, []⟩⟩
        ⟨true, true⟩ = Except.error msg :=
  c8_type_errors initialWorld [] ⟨false, "x"⟩ ⟨true⟩ ⟨true, ⟨0, true, []⟩⟩ ⟨true, true⟩
    (Or.inl rfl)

end CustomAttributes
